import Mathlib

set_option maxRecDepth 100000

/-!
Shallow embedding of `src/main.py` (a Telegram news bot).  Pure text
processing (`_clean_html`, `_categorize_news`, the fingerprint
`hashlib.md5(f"{title}{url}".encode()).hexdigest()`), the per-entry filter
loops of `fetch_rss_news` / `fetch_newsapi_news`, the aggregation in
`collect_all_news` (stable sort by `published` descending, truncation to
`MAX_NEWS_PER_POST`), the sequential publish loop `post_news_to_channel`
(the delivered set `posted_news` is mutated only after a successful send),
and the outcome record of `main`.

Conventions of the embedding:
* Python strings are Lean `String`s; character-level operations
  (substring tests, `str.lower()`) are carried out on the list of Unicode
  code points (`codes`), since `len`, slicing and `in` in Python operate
  on characters.
* `datetime.now()` is an abstract timestamp parameter `now : Nat`
  (recency ordering is all the code uses it for).
* Network transports are modelled by an `Except` argument holding either
  the parsed payload or the exception caught by the `try`/`except` of the
  corresponding fetcher.
* The Telegram send of each item is modelled by a `Bool` paired with the
  item: `true` iff `bot.send_message` returned without raising.
* The mutable set `self.posted_news` is modelled as a `List String` used
  only through membership and insertion.
-/

/-! ### Character-level string model -/

/-- Unicode code points of a string; Python string ops are per character. -/
def codes (s : String) : List Nat := s.data.map Char.toNat

/-- Python `str.lower()` on one code point, restricted to ASCII letters
(the only case mapping exercised by this program's data: every configured
keyword is Persian and caseless). -/
def lowerNat (n : Nat) : Nat := if 65 ≤ n ∧ n ≤ 90 then n + 32 else n

/-- Does `needle` occur at the head of `hay`? -/
def startsWithCodes : List Nat → List Nat → Bool
  | [], _ => true
  | _ :: _, [] => false
  | a :: as, b :: bs => a == b && startsWithCodes as bs

/-- Does `needle` occur as a contiguous substring of `hay`?  This is the
semantics of Python's `needle in hay` on strings. -/
def hasSubCodes : List Nat → List Nat → Bool
  | needle, [] => startsWithCodes needle []
  | needle, b :: bs => startsWithCodes needle (b :: bs) || hasSubCodes needle bs

/-- Python `needle in hay` for strings. -/
def pyIn (needle hay : String) : Bool := hasSubCodes (codes needle) (codes hay)

/-- Python `needle in hay.lower()` for strings (the needle is used as
written, only the haystack is lowercased, exactly as in the source). -/
def pyInLower (needle hay : String) : Bool :=
  hasSubCodes (codes needle) ((codes hay).map lowerNat)

/-- Python slicing `s[:n]` (first `n` characters). -/
def pyTake (s : String) (n : Nat) : String := String.mk (s.data.take n)

/-- Python `len(s)` (number of characters). -/
def pyLen (s : String) : Nat := s.data.length

/-! ### `_clean_html`: BeautifulSoup `get_text()` followed by `strip()` -/

/-- Characters removed by Python `str.strip()` with no argument: the
Unicode whitespace set (every code point for which `str.isspace()` holds:
U+0009-U+000D, U+001C-U+001F, space, U+0085, U+00A0, U+1680,
U+2000-U+200A, U+2028, U+2029, U+202F, U+205F, U+3000). -/
def pySpaceChar (c : Char) : Bool :=
  let n := c.toNat
  (9 ≤ n && n ≤ 13) || (28 ≤ n && n ≤ 32) || n == 133 || n == 160 || n == 5760 ||
    (8192 ≤ n && n ≤ 8202) || n == 8232 || n == 8233 || n == 8239 || n == 8287 ||
    n == 12288

/-- Text extraction of `BeautifulSoup(text, 'html.parser').get_text()`:
everything between `<` and the matching `>` is markup and is dropped, the
remaining character data is concatenated; an unterminated tag swallows
the rest of the input.  The Bool state is "currently inside a tag". -/
def stripTagsAux : Bool → List Char → List Char
  | _, [] => []
  | true, c :: rest => if c = '>' then stripTagsAux false rest else stripTagsAux true rest
  | false, c :: rest => if c = '<' then stripTagsAux true rest else c :: stripTagsAux false rest

/-- The named character references decoded by this model: the XML
predefined set plus `nbsp`.  The stdlib `html.parser` behind
`BeautifulSoup(..., 'html.parser')` runs with `convert_charrefs=True` and
decodes the full HTML5 named table plus numeric references; the
references outside this table are not exercised by any property proved
here (an unrecognized `&name;` stays literal, as in `html.unescape`). -/
def charrefNames : List (List Char × Char) :=
  [("amp".data, '&'), ("lt".data, '<'), ("gt".data, '>'),
   ("quot".data, '"'), ("apos".data, '\''), ("nbsp".data, '\xa0')]

/-- If `name ++ ';'` is a prefix of `l`, return the rest of `l`. -/
def stripNameSemi : List Char → List Char → Option (List Char)
  | [], ';' :: rest => some rest
  | [], _ => none
  | _ :: _, [] => none
  | a :: as, b :: bs => if a = b then stripNameSemi as bs else none

/-- Try each table entry against the text following a `&`. -/
def matchCharref : List (List Char × Char) → List Char → Option (Char × List Char)
  | [], _ => none
  | (name, c) :: table, l =>
    match stripNameSemi name l with
    | some rest => some (c, rest)
    | none => matchCharref table l

/-- Decode character references in character data (fuel-bounded
structural recursion; every step consumes at least one character, so a
fuel of the input length suffices). -/
def decodeCharrefsAux : Nat → List Char → List Char
  | 0, l => l
  | _ + 1, [] => []
  | fuel + 1, c :: rest =>
    if c = '&' then
      match matchCharref charrefNames rest with
      | some (d, rest2) => d :: decodeCharrefsAux fuel rest2
      | none => c :: decodeCharrefsAux fuel rest
    else c :: decodeCharrefsAux fuel rest

def decodeCharrefs (l : List Char) : List Char := decodeCharrefsAux l.length l

/-- Python `str.strip()`: drop leading and trailing whitespace. -/
def pyStrip (l : List Char) : List Char :=
  ((l.dropWhile pySpaceChar).reverse.dropWhile pySpaceChar).reverse

/-- `NewsBot._clean_html`: `BeautifulSoup(text, 'html.parser').get_text().strip()`.
The parser drops markup, decodes character references in the surviving
character data (decoded text is not re-parsed: `"&lt;p&gt;"` yields the
text `"<p>"`), and `strip()` trims Unicode whitespace at both ends. -/
def clean_html (s : String) : String :=
  String.mk (pyStrip (decodeCharrefs (stripTagsAux false s.data)))

/-! ### Configuration (class `Config`) -/

namespace Config

def BLOCKED_KEYWORDS : List String := ["تبلیغات", "آگهی", "فروش"]

def MIN_TITLE_LENGTH : Nat := 10

def MAX_SUMMARY_LENGTH : Nat := 300

def MAX_TITLE_LENGTH : Nat := 100

def MAX_NEWS_PER_POST : Nat := 3

/-- `Config.NEWS_CATEGORIES["ورزشی"]["keywords"]` — the only category in
the table. -/
def SPORTS_KEYWORDS : List String :=
  ["فوتبال", "ورزش", "تیم", "بازیکن", "مسابقه", "جام", "المپیک"]

end Config

/-- `NewsBot._categorize_news`: first (and only) category whose keyword
occurs in `text` (case-sensitive `in`), else the generic label. -/
def categorize_news (text : String) : String :=
  if Config.SPORTS_KEYWORDS.any (fun kw => pyIn kw text) then "ورزشی" else "عمومی"

/-! ### The fingerprint: `hashlib.md5(f"{title}{url}".encode()).hexdigest()` -/

/-- UTF-8 encoding of one code point (Python `str.encode()`). -/
def utf8Char (n : Nat) : List Nat :=
  if n < 128 then [n]
  else if n < 2048 then [192 + n / 64, 128 + n % 64]
  else if n < 65536 then [224 + n / 4096, 128 + (n / 64) % 64, 128 + n % 64]
  else [240 + n / 262144, 128 + (n / 4096) % 64, 128 + (n / 64) % 64, 128 + n % 64]

/-- UTF-8 bytes of a string (Python `str.encode()`). -/
def utf8Encode (s : String) : List Nat :=
  (s.data.map (fun c => utf8Char c.toNat)).flatten

def mask32 (n : Nat) : Nat := n % 4294967296

def rotl32 (x s : Nat) : Nat := mask32 (x <<< s) ||| (x >>> (32 - s))

def not32 (x : Nat) : Nat := 4294967295 ^^^ x

/-- The 64 MD5 sine-derived constants of RFC 1321. -/
def md5K : List Nat :=
  [0xd76aa478, 0xe8c7b756, 0x242070db, 0xc1bdceee,
   0xf57c0faf, 0x4787c62a, 0xa8304613, 0xfd469501,
   0x698098d8, 0x8b44f7af, 0xffff5bb1, 0x895cd7be,
   0x6b901122, 0xfd987193, 0xa679438e, 0x49b40821,
   0xf61e2562, 0xc040b340, 0x265e5a51, 0xe9b6c7aa,
   0xd62f105d, 0x02441453, 0xd8a1e681, 0xe7d3fbc8,
   0x21e1cde6, 0xc33707d6, 0xf4d50d87, 0x455a14ed,
   0xa9e3e905, 0xfcefa3f8, 0x676f02d9, 0x8d2a4c8a,
   0xfffa3942, 0x8771f681, 0x6d9d6122, 0xfde5380c,
   0xa4beea44, 0x4bdecfa9, 0xf6bb4b60, 0xbebfbc70,
   0x289b7ec6, 0xeaa127fa, 0xd4ef3085, 0x04881d05,
   0xd9d4d039, 0xe6db99e5, 0x1fa27cf8, 0xc4ac5665,
   0xf4292244, 0x432aff97, 0xab9423a7, 0xfc93a039,
   0x655b59c3, 0x8f0ccc92, 0xffeff47d, 0x85845dd1,
   0x6fa87e4f, 0xfe2ce6e0, 0xa3014314, 0x4e0811a1,
   0xf7537e82, 0xbd3af235, 0x2ad7d2bb, 0xeb86d391]

/-- The 64 per-round left-rotation amounts of RFC 1321. -/
def md5S : List Nat :=
  [7, 12, 17, 22, 7, 12, 17, 22, 7, 12, 17, 22, 7, 12, 17, 22,
   5, 9, 14, 20, 5, 9, 14, 20, 5, 9, 14, 20, 5, 9, 14, 20,
   4, 11, 16, 23, 4, 11, 16, 23, 4, 11, 16, 23, 4, 11, 16, 23,
   6, 10, 15, 21, 6, 10, 15, 21, 6, 10, 15, 21, 6, 10, 15, 21]

structure Md5State where
  a : Nat
  b : Nat
  c : Nat
  d : Nat
deriving DecidableEq

/-- The round function F/G/H/I of RFC 1321, selected by operation index. -/
def md5F (i b c d : Nat) : Nat :=
  if i < 16 then (b &&& c) ||| (not32 b &&& d)
  else if i < 32 then (d &&& b) ||| (not32 d &&& c)
  else if i < 48 then b ^^^ c ^^^ d
  else c ^^^ (b ||| not32 d)

/-- Message-word index of operation `i`. -/
def md5G (i : Nat) : Nat :=
  if i < 16 then i
  else if i < 32 then (5 * i + 1) % 16
  else if i < 48 then (3 * i + 5) % 16
  else (7 * i) % 16

/-- One of the 64 MD5 operations on the running state. -/
def md5Op (m : List Nat) (st : Md5State) (i : Nat) : Md5State :=
  let f := md5F i st.b st.c st.d
  let temp := mask32 (st.a + f + md5K.getD i 0 + m.getD (md5G i) 0)
  { a := st.d, b := mask32 (st.b + rotl32 temp (md5S.getD i 0)), c := st.b, d := st.c }

/-- Group bytes into 32-bit little-endian words. -/
def toWords : List Nat → List Nat
  | b0 :: b1 :: b2 :: b3 :: rest =>
    (b0 + 256 * b1 + 65536 * b2 + 16777216 * b3) :: toWords rest
  | _ => []

/-- Compress one 64-byte chunk into the state. -/
def md5Block (st : Md5State) (chunk : List Nat) : Md5State :=
  let m := toWords chunk
  let r := (List.range 64).foldl (md5Op m) st
  { a := mask32 (st.a + r.a), b := mask32 (st.b + r.b),
    c := mask32 (st.c + r.c), d := mask32 (st.d + r.d) }

/-- `k` little-endian bytes of `n`. -/
def leBytes : Nat → Nat → List Nat
  | 0, _ => []
  | k + 1, n => n % 256 :: leBytes k (n / 256)

/-- MD5 padding: `0x80`, zeros to 56 mod 64, 8-byte little-endian bit length. -/
def md5Pad (msg : List Nat) : List Nat :=
  let z := (119 - msg.length % 64) % 64
  msg ++ 128 :: (List.replicate z 0 ++ leBytes 8 (8 * msg.length))

def chunks64Aux : Nat → List Nat → List (List Nat)
  | 0, _ => []
  | _ + 1, [] => []
  | fuel + 1, a :: rest => (a :: rest).take 64 :: chunks64Aux fuel ((a :: rest).drop 64)

/-- Split a byte list into 64-byte chunks.  Structural recursion on a
fuel of `l.length`, which always suffices: every step consumes at least
one byte. -/
def chunks64 (l : List Nat) : List (List Nat) := chunks64Aux l.length l

/-- The 16 digest bytes of a byte message. -/
def md5Bytes (msg : List Nat) : List Nat :=
  let st := (chunks64 (md5Pad msg)).foldl md5Block
    { a := 0x67452301, b := 0xefcdab89, c := 0x98badcfe, d := 0x10325476 }
  leBytes 4 st.a ++ leBytes 4 st.b ++ leBytes 4 st.c ++ leBytes 4 st.d

def hexChar (n : Nat) : Char :=
  if n < 10 then Char.ofNat (48 + n) else Char.ofNat (87 + n)

/-- `hashlib.md5(msg).hexdigest()`. -/
def md5_hexdigest (msg : List Nat) : String :=
  String.mk ((md5Bytes msg).foldr
    (fun byte acc => hexChar (byte / 16) :: hexChar (byte % 16) :: acc) [])

/-- The item fingerprint of the source, lines 145 and 176:
`hashlib.md5(f"{title}{url}".encode()).hexdigest()`. -/
def fingerprint (title url : String) : String :=
  md5_hexdigest (utf8Encode (title ++ url))

/-! ### The work item (`@dataclass NewsItem`) -/

structure NewsItem where
  title : String
  summary : String
  url : String
  source : String
  published : Nat
  hash_id : String
  category : String
deriving DecidableEq

instance : Inhabited NewsItem := ⟨⟨"", "", "", "", 0, "", ""⟩⟩

/-! ### `fetch_rss_news` (lines 132-160) -/

/-- One parsed feed entry as consumed by the loop: `entry.get('title', '')`,
`entry.get('summary', '')`, `entry.get('link', '')` (the `.get` defaults
make all three total). -/
structure RssEntry where
  title : String
  summary : String
  link : String
deriving DecidableEq

/-- The body of the `for entry in feed.entries[:5]` loop of
`fetch_rss_news`: `none` when the entry is rejected by a `continue` or by
the final guard, `some item` when a `NewsItem` is appended.  `url` is the
feed URL passed to `fetch_rss_news` (note: the fingerprint on line 145
hashes this `url`, while the item's own `url` field is `entry['link']`). -/
def rss_entry_item (source url : String) (now : Nat) (posted : List String)
    (e : RssEntry) : Option NewsItem :=
  let title := clean_html e.title
  if pyLen title < Config.MIN_TITLE_LENGTH then none
  else
    let summary := pyTake (clean_html e.summary) Config.MAX_SUMMARY_LENGTH
    if Config.BLOCKED_KEYWORDS.any (fun kw => pyInLower kw title || pyInLower kw summary) then
      none
    else
      let hash_id := fingerprint title url
      if !posted.contains hash_id && (categorize_news (title ++ " " ++ summary) == "ورزشی") then
        some { title := pyTake title Config.MAX_TITLE_LENGTH
               summary := summary
               url := e.link
               source := source
               published := now
               hash_id := hash_id
               category := "ورزشی" }
      else none

/-- `NewsBot.fetch_rss_news`.  `response` is the outcome of the HTTP get
plus `feedparser.parse`: `.error` when an exception was raised somewhere
in the body (and caught by the function's own `try`/`except`, which logs
and returns `[]`), `.ok entries` otherwise.  Note which failures raise:
a transport error or timeout does; a non-2xx status does **not** (the
code never reads `response.status`), and a malformed payload does not
either (`feedparser.parse` is total — it records the problem on `bozo`
and returns whatever entries it recovered), so those cases arrive here
as `.ok` with the recovered entries.  `fetch_rss_news_response` below
makes the status explicit. -/
def fetch_rss_news (source url : String) (now : Nat) (posted : List String)
    (response : Except String (List RssEntry)) : List NewsItem :=
  match response with
  | .error _ => []
  | .ok entries => (entries.take 5).filterMap (rss_entry_item source url now posted)

/-- An RSS HTTP response that did not raise: its status code and the
entries `feedparser.parse` recovered from the body text (possibly none,
possibly some, also for non-2xx statuses and malformed payloads). -/
structure RssResponse where
  status : Nat
  entries : List RssEntry
deriving DecidableEq

/-- `NewsBot.fetch_rss_news` with the transport outcome split in full:
either a raised transport/timeout exception, or a response carrying its
HTTP status and the parsed entries.  The loop body is identical to
`fetch_rss_news`; the status is ignored, exactly as in the source, which
feeds `await response.text()` straight into `feedparser.parse` without
any status check. -/
def fetch_rss_news_response (source url : String) (now : Nat) (posted : List String)
    (response : Except String RssResponse) : List NewsItem :=
  match response with
  | .error _ => []
  | .ok r => (r.entries.take 5).filterMap (rss_entry_item source url now posted)

/-! ### `fetch_newsapi_news` (lines 162-191) -/

/-- One article object of the NewsAPI response: `article['title']`,
`article.get('description', '')`, `article['url']`. -/
structure ApiArticle where
  title : String
  description : String
  url : String
deriving DecidableEq

/-- The body of the `for article in articles[:5]` loop of
`fetch_newsapi_news`.  Unlike the RSS loop there is no category check,
and the fingerprint hashes `article['url']`. -/
def api_article_item (now : Nat) (posted : List String)
    (article : ApiArticle) : Option NewsItem :=
  let title := clean_html article.title
  if pyLen title < Config.MIN_TITLE_LENGTH then none
  else
    let summary := pyTake (clean_html article.description) Config.MAX_SUMMARY_LENGTH
    if Config.BLOCKED_KEYWORDS.any (fun kw => pyInLower kw title || pyInLower kw summary) then
      none
    else
      let hash_id := fingerprint title article.url
      if !posted.contains hash_id then
        some { title := pyTake title Config.MAX_TITLE_LENGTH
               summary := summary
               url := article.url
               source := "NewsAPI"
               published := now
               hash_id := hash_id
               category := "ورزشی" }
      else none

/-- `NewsBot.fetch_newsapi_news`; `response.raise_for_status()` and JSON
errors are caught by the function's own `try`/`except` → `[]`. -/
def fetch_newsapi_news (now : Nat) (posted : List String)
    (response : Except String (List ApiArticle)) : List NewsItem :=
  match response with
  | .error _ => []
  | .ok articles => (articles.take 5).filterMap (api_article_item now posted)

/-! ### `collect_all_news` (lines 236-245) -/

/-- One enabled RSS source together with its fetch outcome for this run. -/
structure RssFetch where
  source : String
  url : String
  now : Nat
  response : Except String (List RssEntry)

/-- `all_news` just before the sort: NewsAPI items first, then the RSS
items in source order (the code awaits the fetches sequentially in the
`Config.get_enabled_sources()` dictionary order). -/
def all_candidates (apiNow : Nat) (posted : List String)
    (apiResponse : Except String (List ApiArticle)) (sources : List RssFetch) :
    List NewsItem :=
  fetch_newsapi_news apiNow posted apiResponse ++
    (sources.map (fun s => fetch_rss_news s.source s.url s.now posted s.response)).flatten

/-- The sort key relation of `all_news.sort(key=lambda x: x.published,
reverse=True)`: `a` may precede `b` iff `b.published ≤ a.published`. -/
def recency (a b : NewsItem) : Prop := b.published ≤ a.published

instance : DecidableRel recency := fun _ _ => Nat.decLe _ _

instance : IsTotal NewsItem recency := ⟨fun a b => Nat.le_total b.published a.published⟩

instance : IsTrans NewsItem recency := ⟨fun _ _ _ hab hbc => Nat.le_trans hbc hab⟩

/-- `NewsBot.collect_all_news`: concatenate, stable-sort by `published`
descending (Python `list.sort` is stable, also with `reverse=True`), and
slice `[:Config.MAX_NEWS_PER_POST]`. -/
def collect_all_news (apiNow : Nat) (posted : List String)
    (apiResponse : Except String (List ApiArticle)) (sources : List RssFetch) :
    List NewsItem :=
  (List.insertionSort recency (all_candidates apiNow posted apiResponse sources)).take
    Config.MAX_NEWS_PER_POST

/-! ### `post_news_to_channel` (lines 247-271) -/

/-- `NewsBot.post_news_to_channel`.  Each item is paired with the outcome
of its `bot.send_message` call (`true` = returned without raising).  The
whole loop body sits in a per-item `try`/`except`: on a send failure the
item is skipped (nothing marked) and the loop continues; after a
successful send `self.posted_news.add(news.hash_id)` runs.  Returns the
delivered set after the loop and the list of fingerprints of successful
sends, in send order.  (`summarize_news` swallows its own exceptions and
returns the original text, so it never aborts an iteration; the
`asyncio.sleep` after a send can raise, but only after the add.) -/
def post_news_to_channel : List (NewsItem × Bool) → List String →
    List String × List String
  | [], posted => (posted, [])
  | (news, sendOk) :: rest, posted =>
    if sendOk then
      let r := post_news_to_channel rest (news.hash_id :: posted)
      (r.1, news.hash_id :: r.2)
    else post_news_to_channel rest posted

/-! ### `main` (lines 273-284) -/

structure RunResult where
  status : String
  message : String
deriving DecidableEq

/-- The `context.res.json` payload returned by `main`.  `initError` is
`some msg` when constructing `NewsBot()` raised (missing token or channel
id), which the outer `try` catches before any fetch; `news_items` is the
result of `collect_all_news`. -/
def main_run (initError : Option String) (news_items : List NewsItem) : RunResult :=
  match initError with
  | some msg => { status := "error", message := msg }
  | none =>
    if news_items.isEmpty then { status := "error", message := "No news fetched" }
    else { status := "success"
           message := "Sent " ++ toString news_items.length ++ " news to channel" }

/-! ### Spec-side definitions and concrete scenario inputs -/

/-- The category table of `Config.NEWS_CATEGORIES`, as an ordered list of
(label, keywords) pairs; the source dictionary holds exactly one entry. -/
def NEWS_CATEGORIES : List (String × List String) :=
  [("ورزشی", Config.SPORTS_KEYWORDS)]

/-- Modelled from the spec's words (section 4.2), for comparison with
`categorize_news`: iterate the configured category set in order, return
the first category one of whose keywords occurs as a case-insensitive
substring of the text, else the generic fallback label. -/
def categorize_spec (text : String) : String :=
  match NEWS_CATEGORIES.find? (fun c =>
      c.2.any (fun kw =>
        hasSubCodes ((codes kw).map lowerNat) ((codes text).map lowerNat))) with
  | some c => c.1
  | none => "عمومی"

/-- A sports feed entry appearing twice in one feed payload (e.g. a feed
that repeats an item). -/
def dup_entry : RssEntry := ⟨"فوتبال امروز", "خلاصه", "L"⟩

/-- The items `fetch_rss_news` emits for the duplicated entry with an
empty delivered set: the in-fetch dedup check consults only the
pre-existing `posted_news`, which is not updated during the fetch. -/
def dup_feed_items : List NewsItem :=
  fetch_rss_news "src" "feed" 0 [] (Except.ok [dup_entry, dup_entry])

def dup_hash : String := fingerprint (clean_html dup_entry.title) "feed"

/-- The fingerprints of the successful sends when every Telegram send of
the duplicated batch succeeds. -/
def dup_sends : List String :=
  (post_news_to_channel (dup_feed_items.map (fun n => (n, true))) []).2

/-- One article entry (same title, same article link) as served inside
two different feeds. -/
def shared_entry : RssEntry := ⟨"فوتبال امروز", "", "https://site/article"⟩

def c2_itemA : NewsItem := (rss_entry_item "A" "a" 0 [] shared_entry).getD default

def c2_itemB : NewsItem := (rss_entry_item "B" "b" 0 [] shared_entry).getD default

def c2w_entry : RssEntry := ⟨"مسابقه جام جهانی", "", "L"⟩

def c2w_item : NewsItem := (rss_entry_item "S" "U" 3 [] c2w_entry).getD default

/-- Three publisher inputs with fixed fingerprints for the send-failure
scenario. -/
def scenario_item (h : String) : NewsItem :=
  { title := "t", summary := "", url := "", source := "", published := 0,
    hash_id := h, category := "ورزشی" }

/-- Four NewsAPI articles that all survive the filters (titles of length
11, nothing blocklisted). -/
def four_articles : List ApiArticle :=
  [⟨"abcdefghijk", "", "u1"⟩, ⟨"bcdefghijkl", "", "u2"⟩,
   ⟨"cdefghijklm", "", "u3"⟩, ⟨"defghijklmn", "", "u4"⟩]

def c5_first : NewsItem :=
  (collect_all_news 0 [] (Except.ok four_articles) []).headD default

def c5_dropped : NewsItem :=
  ((List.insertionSort recency (all_candidates 0 [] (Except.ok four_articles) [])).drop
    Config.MAX_NEWS_PER_POST).headD default

def c7_entry : RssEntry := ⟨"ورزش خبر تازه", "توضیح", "L7"⟩

def c7_item : NewsItem := (rss_entry_item "s" "u" 7 [] c7_entry).getD default

/-- A NewsAPI sports-endpoint article whose text contains no configured
sports keyword (the keywords are Persian; this title is English). -/
def chess_article : ApiArticle :=
  ⟨"Local chess tournament winners", "Results from the city round",
   "https://chess.example/r1"⟩

/-- A sports entry recovered by `feedparser.parse` from the body of a
failed or malformed RSS response (e.g. a status-500 response, or a
truncated feed from which the parser salvaged one item). -/
def c4_entry : RssEntry := ⟨"فوتبال امروز", "خلاصه", "L"⟩

/-! ## Supporting lemmas: substrings and lowercasing -/

/-- Is `n` the code of an ASCII letter (either case)? -/
def asciiLetter (n : Nat) : Bool := (65 ≤ n && n ≤ 90) || (97 ≤ n && n ≤ 122)

theorem lowerNat_eq_iff {a b : Nat} (ha : asciiLetter a = false) :
    lowerNat b = a ↔ b = a := by
  simp only [asciiLetter, Bool.or_eq_false_iff, Bool.and_eq_false_iff,
    decide_eq_false_iff_not, not_le] at ha
  unfold lowerNat
  split <;> omega

theorem lowerNat_fix {a : Nat} (ha : asciiLetter a = false) : lowerNat a = a := by
  simp only [asciiLetter, Bool.or_eq_false_iff, Bool.and_eq_false_iff,
    decide_eq_false_iff_not, not_le] at ha
  unfold lowerNat
  split <;> omega

theorem startsWithCodes_map_lower {k : List Nat}
    (hk : k.all (fun n => !asciiLetter n) = true) (l : List Nat) :
    startsWithCodes k (l.map lowerNat) = startsWithCodes k l := by
  induction k generalizing l with
  | nil => rfl
  | cons a as ih =>
    simp only [List.all_cons, Bool.and_eq_true, Bool.not_eq_true'] at hk
    cases l with
    | nil => rfl
    | cons b bs =>
      simp only [List.map_cons, startsWithCodes, ih hk.2]
      have hb : (a == lowerNat b) = (a == b) := by
        by_cases hab : b = a
        · subst hab
          rw [lowerNat_fix hk.1]
        · have h2 : lowerNat b ≠ a := fun hc => hab ((lowerNat_eq_iff hk.1).mp hc)
          have e1 : (a == lowerNat b) = false :=
            beq_eq_false_iff_ne.mpr (fun hc => h2 hc.symm)
          have e2 : (a == b) = false :=
            beq_eq_false_iff_ne.mpr (fun hc => hab hc.symm)
          rw [e1, e2]
      rw [hb]

theorem hasSubCodes_map_lower {k : List Nat}
    (hk : k.all (fun n => !asciiLetter n) = true) (l : List Nat) :
    hasSubCodes k (l.map lowerNat) = hasSubCodes k l := by
  induction l with
  | nil => rfl
  | cons b bs ih =>
    simp only [List.map_cons, hasSubCodes, ih]
    rw [show (lowerNat b :: bs.map lowerNat) = (b :: bs).map lowerNat from rfl,
      startsWithCodes_map_lower hk]

theorem startsWithCodes_take {k l : List Nat} {n : Nat}
    (h : startsWithCodes k (l.take n) = true) : startsWithCodes k l = true := by
  induction k generalizing l n with
  | nil => rfl
  | cons a as ih =>
    cases l with
    | nil => cases n <;> simp [startsWithCodes] at h
    | cons b bs =>
      cases n with
      | zero => simp [startsWithCodes] at h
      | succ m =>
        simp only [List.take_succ_cons, startsWithCodes, Bool.and_eq_true] at h ⊢
        exact ⟨h.1, ih h.2⟩

theorem hasSubCodes_take {k l : List Nat} {n : Nat}
    (h : hasSubCodes k (l.take n) = true) : hasSubCodes k l = true := by
  induction l generalizing n with
  | nil => simpa [List.take_nil] using h
  | cons b bs ih =>
    cases n with
    | zero =>
      cases k with
      | nil => rfl
      | cons a as => simp [hasSubCodes, startsWithCodes] at h
    | succ m =>
      simp only [List.take_succ_cons, hasSubCodes, Bool.or_eq_true] at h ⊢
      rcases h with h | h
      · exact Or.inl (startsWithCodes_take (n := m + 1) h)
      · exact Or.inr (ih h)

theorem codes_pyTake (s : String) (n : Nat) :
    codes (pyTake s n) = (codes s).take n := by
  simp [codes, pyTake, List.map_take]

theorem pyInLower_pyTake {kw s : String} {n : Nat}
    (h : pyInLower kw (pyTake s n) = true) : pyInLower kw s = true := by
  unfold pyInLower at h ⊢
  rw [codes_pyTake, List.map_take] at h
  exact hasSubCodes_take h

/-! ## Supporting lemmas: `pyStrip` trims -/

theorem head?_dropWhile_false {α : Type} (p : α → Bool) (l : List α) {c : α}
    (h : (l.dropWhile p).head? = some c) : p c = false := by
  induction l with
  | nil => simp [List.dropWhile] at h
  | cons a as ih =>
    rw [List.dropWhile_cons] at h
    split at h
    · exact ih h
    · next hpa =>
      simp only [List.head?_cons, Option.some.injEq] at h
      subst h
      exact Bool.eq_false_iff.mpr hpa

theorem pyStrip_head {l : List Char} {c : Char}
    (h : (pyStrip l).head? = some c) : pySpaceChar c = false := by
  unfold pyStrip at h
  rw [List.head?_reverse] at h
  set t1 := (l.dropWhile pySpaceChar).reverse with ht1
  obtain ⟨pre, hpre⟩ := List.dropWhile_suffix (l := t1) pySpaceChar
  have ht : t1.getLast? = some c := by
    rw [← hpre, List.getLast?_append, h]
    rfl
  rw [ht1, List.getLast?_reverse] at ht
  exact head?_dropWhile_false _ _ ht

theorem pyStrip_getLast {l : List Char} {c : Char}
    (h : (pyStrip l).getLast? = some c) : pySpaceChar c = false := by
  unfold pyStrip at h
  rw [List.getLast?_reverse] at h
  exact head?_dropWhile_false _ _ h

theorem decodeCharrefsAux_no_amp {fuel : Nat} :
    ∀ {l : List Char}, l.length ≤ fuel → l.all (fun c => !(c == '&')) = true →
      decodeCharrefsAux fuel l = l := by
  induction fuel with
  | zero =>
    intro l hl _
    cases l with
    | nil => rfl
    | cons c rest => simp at hl
  | succ f ih =>
    intro l hl ha
    cases l with
    | nil => rfl
    | cons c rest =>
      rw [List.all_cons, Bool.and_eq_true] at ha
      have hc : c ≠ '&' := by
        have h1 := ha.1
        rw [Bool.not_eq_true', beq_eq_false_iff_ne] at h1
        exact h1
      have hlen : rest.length ≤ f := by
        rw [List.length_cons] at hl
        omega
      simp only [decodeCharrefsAux]
      rw [if_neg hc, ih hlen ha.2]

/-- On input containing no `&`, the character-reference decoder is the
identity. -/
theorem decodeCharrefs_no_amp {l : List Char}
    (h : l.all (fun c => !(c == '&')) = true) : decodeCharrefs l = l :=
  decodeCharrefsAux_no_amp (Nat.le_refl _) h

/-- On input containing no `<`, the tag stripper is the identity: the
cleaner touches nothing but the outer whitespace. -/
theorem stripTagsAux_no_tag {l : List Char} (h : l.all (fun c => !(c == '<')) = true) :
    stripTagsAux false l = l := by
  induction l with
  | nil => rfl
  | cons a as ih =>
    simp only [List.all_cons, Bool.and_eq_true, Bool.not_eq_true',
      beq_eq_false_iff_ne] at h
    rw [stripTagsAux, if_neg h.1, ih]
    simp only [List.all_eq_true] at *
    intro c hc
    exact h.2 c hc

/-! ## Supporting lemmas: the sort of `collect_all_news` is stable -/

theorem filter_orderedInsert_published (t : Nat) (x : NewsItem) (l : List NewsItem) :
    (List.orderedInsert recency x l).filter (fun a => decide (a.published = t)) =
      if x.published = t then
        x :: l.filter (fun a => decide (a.published = t))
      else l.filter (fun a => decide (a.published = t)) := by
  induction l with
  | nil =>
    by_cases hx : x.published = t <;>
      simp [List.orderedInsert, List.filter_cons, hx]
  | cons b bs ih =>
    by_cases hr : recency x b
    · rw [List.orderedInsert, if_pos hr]
      by_cases hx : x.published = t <;>
        simp [List.filter_cons, hx]
    · rw [List.orderedInsert, if_neg hr]
      unfold recency at hr
      by_cases hx : x.published = t
      · have hbt : b.published ≠ t := by omega
        simp [List.filter_cons, hbt, ih, hx]
      · by_cases hbt : b.published = t <;>
          simp [List.filter_cons, hbt, ih, hx]

theorem insertionSort_filter_published (t : Nat) (l : List NewsItem) :
    (List.insertionSort recency l).filter (fun a => decide (a.published = t)) =
      l.filter (fun a => decide (a.published = t)) := by
  induction l with
  | nil => rfl
  | cons x l ih =>
    rw [List.insertionSort, filter_orderedInsert_published]
    by_cases hx : x.published = t
    · rw [if_pos hx, ih]
      simp [List.filter_cons, hx]
    · rw [if_neg hx, ih]
      simp [List.filter_cons, hx]

/-! ## Supporting lemmas: the publish loop -/

/-- The delivered set after the loop is exactly the pre-existing set plus
the fingerprints of the successful sends (added one at a time, most
recent first). -/
theorem post_marks (items : List (NewsItem × Bool)) :
    ∀ posted, (post_news_to_channel items posted).1 =
      (post_news_to_channel items posted).2.reverse ++ posted := by
  induction items with
  | nil => intro posted; rfl
  | cons p rest ih =>
    intro posted
    obtain ⟨n, ok⟩ := p
    cases ok with
    | false => simpa [post_news_to_channel] using ih posted
    | true => simp [post_news_to_channel, ih (n.hash_id :: posted)]

/-- The successful sends are exactly the items whose send succeeded, in
order: a failure never removes a later item from consideration. -/
theorem post_sends (items : List (NewsItem × Bool)) :
    ∀ posted, (post_news_to_channel items posted).2 =
      (items.filter (fun p => p.2)).map (fun p => p.1.hash_id) := by
  induction items with
  | nil => intro posted; rfl
  | cons p rest ih =>
    intro posted
    obtain ⟨n, ok⟩ := p
    cases ok with
    | false => simp [post_news_to_channel, List.filter_cons, ih posted]
    | true => simp [post_news_to_channel, List.filter_cons, ih (n.hash_id :: posted)]

/-! ## Supporting lemmas: what an emitted item looks like -/

theorem pyLen_pyTake (s : String) (n : Nat) :
    pyLen (pyTake s n) = min n (pyLen s) := by
  simp [pyLen, pyTake, List.length_take]

/-- Everything `rss_entry_item source url now posted e = some item`
guarantees: the field values of the item and the filter conditions it
passed. -/
theorem rss_entry_item_spec {source url : String} {now : Nat} {posted : List String}
    {e : RssEntry} {item : NewsItem}
    (h : rss_entry_item source url now posted e = some item) :
    item.title = pyTake (clean_html e.title) Config.MAX_TITLE_LENGTH
    ∧ item.summary = pyTake (clean_html e.summary) Config.MAX_SUMMARY_LENGTH
    ∧ item.url = e.link
    ∧ item.source = source
    ∧ item.published = now
    ∧ item.hash_id = fingerprint (clean_html e.title) url
    ∧ item.category = "ورزشی"
    ∧ Config.MIN_TITLE_LENGTH ≤ pyLen (clean_html e.title)
    ∧ (∀ kw ∈ Config.BLOCKED_KEYWORDS,
        pyInLower kw (clean_html e.title) = false
        ∧ pyInLower kw (pyTake (clean_html e.summary) Config.MAX_SUMMARY_LENGTH) = false)
    ∧ posted.contains item.hash_id = false
    ∧ categorize_news (clean_html e.title ++ " " ++
        pyTake (clean_html e.summary) Config.MAX_SUMMARY_LENGTH) = "ورزشی" := by
  simp only [rss_entry_item] at h
  split at h
  · exact absurd h (by simp)
  · next hlen =>
    split at h
    · exact absurd h (by simp)
    · next hblock =>
      split at h
      · next hguard =>
        simp only [Option.some.injEq] at h
        subst h
        simp only [Bool.and_eq_true, Bool.not_eq_true', beq_iff_eq] at hguard
        refine ⟨rfl, rfl, rfl, rfl, rfl, rfl, rfl, by omega, ?_, hguard.1, hguard.2⟩
        intro kw hkw
        rw [Bool.not_eq_true] at hblock
        have hall := List.any_eq_false.mp hblock kw hkw
        simpa [Bool.or_eq_false_iff] using hall
      · exact absurd h (by simp)

/-- The NewsAPI counterpart of `rss_entry_item_spec`; note the absence of
any category condition and the use of `article['url']` in the hash. -/
theorem api_article_item_spec {now : Nat} {posted : List String}
    {a : ApiArticle} {item : NewsItem}
    (h : api_article_item now posted a = some item) :
    item.title = pyTake (clean_html a.title) Config.MAX_TITLE_LENGTH
    ∧ item.summary = pyTake (clean_html a.description) Config.MAX_SUMMARY_LENGTH
    ∧ item.url = a.url
    ∧ item.source = "NewsAPI"
    ∧ item.published = now
    ∧ item.hash_id = fingerprint (clean_html a.title) a.url
    ∧ item.category = "ورزشی"
    ∧ Config.MIN_TITLE_LENGTH ≤ pyLen (clean_html a.title)
    ∧ (∀ kw ∈ Config.BLOCKED_KEYWORDS,
        pyInLower kw (clean_html a.title) = false
        ∧ pyInLower kw (pyTake (clean_html a.description) Config.MAX_SUMMARY_LENGTH) = false)
    ∧ posted.contains item.hash_id = false := by
  simp only [api_article_item] at h
  split at h
  · exact absurd h (by simp)
  · next hlen =>
    split at h
    · exact absurd h (by simp)
    · next hblock =>
      split at h
      · next hguard =>
        simp only [Option.some.injEq] at h
        subst h
        simp only [Bool.not_eq_true'] at hguard
        refine ⟨rfl, rfl, rfl, rfl, rfl, rfl, rfl, by omega, ?_, hguard⟩
        intro kw hkw
        rw [Bool.not_eq_true] at hblock
        have hall := List.any_eq_false.mp hblock kw hkw
        simpa [Bool.or_eq_false_iff] using hall
      · exact absurd h (by simp)

/-- Every item put forward by `collect_all_news` came out of one of the
two per-entry filters, so its fingerprint was not in `posted_news` when
the fetch ran. -/
theorem all_candidates_fresh {apiNow : Nat} {posted : List String}
    {apiResponse : Except String (List ApiArticle)} {sources : List RssFetch}
    {item : NewsItem} (h : item ∈ all_candidates apiNow posted apiResponse sources) :
    posted.contains item.hash_id = false := by
  unfold all_candidates at h
  rw [List.mem_append] at h
  rcases h with h | h
  · unfold fetch_newsapi_news at h
    match apiResponse with
    | .error _ => simp at h
    | .ok articles =>
      simp only [List.mem_filterMap] at h
      obtain ⟨a, _, ha⟩ := h
      exact (api_article_item_spec ha).2.2.2.2.2.2.2.2.2
  · simp only [List.mem_flatten, List.mem_map] at h
    obtain ⟨l, ⟨s, _, rfl⟩, hl⟩ := h
    unfold fetch_rss_news at hl
    match hs : s.response with
    | .error _ => rw [hs] at hl; simp at hl
    | .ok entries =>
      rw [hs] at hl
      simp only [List.mem_filterMap] at hl
      obtain ⟨a, _, ha⟩ := hl
      exact (rss_entry_item_spec ha).2.2.2.2.2.2.2.2.2.1

/-! ## Supporting lemmas: the configured keywords are caseless -/

theorem blocked_kw_fix {kw : String} (hkw : kw ∈ Config.BLOCKED_KEYWORDS) :
    (codes kw).map lowerNat = codes kw := by
  fin_cases hkw <;> decide

theorem sports_kw_bridge {kw : String} (hkw : kw ∈ Config.SPORTS_KEYWORDS)
    (text : String) :
    hasSubCodes ((codes kw).map lowerNat) ((codes text).map lowerNat) = pyIn kw text := by
  have hfix : (codes kw).map lowerNat = codes kw
      ∧ (codes kw).all (fun n => !asciiLetter n) = true := by
    fin_cases hkw <;> exact ⟨by decide, by decide⟩
  rw [hfix.1, hasSubCodes_map_lower hfix.2]
  rfl

theorem contains_false_not_mem {a : String} {l : List String}
    (h : l.contains a = false) : a ∉ l := by
  induction l with
  | nil => simp
  | cons b t ih =>
    rw [List.contains_cons] at h
    simp only [Bool.or_eq_false_iff] at h
    intro hm
    rcases List.mem_cons.mp hm with rfl | hm2
    · rw [beq_self_eq_true] at h
      exact absurd h.1 (by simp)
    · exact ih h.2 hm2

/-! ## The claims -/

/-- C9.  For every input text and the fixed configured category-keyword
table, categorization is deterministic (it is a pure function of the
text) and honors first-match-in-table-order: `categorize_news` agrees
everywhere with `categorize_spec`, which iterates the table in configured
order, returns the first category one of whose keywords occurs as a
case-insensitive substring of the text, and falls back to the generic
label.  (The source matches case-sensitively, but every configured
keyword is caseless Persian, so the two readings coincide.) -/
theorem claim_C9_categorizer_first_match (text : String) :
    categorize_news text = categorize_spec text := by
  have hany : (Config.SPORTS_KEYWORDS.any (fun kw =>
      hasSubCodes ((codes kw).map lowerNat) ((codes text).map lowerNat)))
      = Config.SPORTS_KEYWORDS.any (fun kw => pyIn kw text) := by
    apply Bool.eq_iff_iff.mpr
    simp only [List.any_eq_true]
    constructor
    · rintro ⟨kw, hkw, hp⟩
      exact ⟨kw, hkw, by rwa [sports_kw_bridge hkw] at hp⟩
    · rintro ⟨kw, hkw, hp⟩
      exact ⟨kw, hkw, by rwa [sports_kw_bridge hkw]⟩
  unfold categorize_news categorize_spec NEWS_CATEGORIES
  simp only [List.find?, hany]
  cases hc : Config.SPORTS_KEYWORDS.any (fun kw => pyIn kw text) <;> simp [hc]

/-- C9 witness: the two categorizers agree on a concrete sports headline
and on a concrete non-sports text. -/
theorem claim_C9_witness :
    categorize_news "نتیجه مسابقه" = categorize_spec "نتیجه مسابقه" :=
  claim_C9_categorizer_first_match "نتیجه مسابقه"

/-- C3.  A fingerprint is in the delivered set after the publish loop iff
it was there before or a successful send carried it; the successful sends
are exactly the items whose send succeeded, in order, so a failure on one
item never removes a later item from consideration.  The closing conjunct
is the spec's scenario: send #2 of 3 fails, #1 and #3 are still sent and
marked. -/
theorem claim_C3_marked_iff_sent :
    (∀ (items : List (NewsItem × Bool)) (posted : List String) (h : String),
        h ∈ (post_news_to_channel items posted).1 ↔
          h ∈ posted ∨ h ∈ (post_news_to_channel items posted).2)
    ∧ (∀ (items : List (NewsItem × Bool)) (posted : List String),
        (post_news_to_channel items posted).2 =
          (items.filter (fun p => p.2)).map (fun p => p.1.hash_id))
    ∧ ((post_news_to_channel
          [(scenario_item "h1", true), (scenario_item "h2", false),
           (scenario_item "h3", true)] []).2 = ["h1", "h3"]
        ∧ (post_news_to_channel
            [(scenario_item "h1", true), (scenario_item "h2", false),
             (scenario_item "h3", true)] []).1 = ["h3", "h1"]) := by
  refine ⟨?_, post_sends, by decide⟩
  intro items posted h
  rw [post_marks, List.mem_append, List.mem_reverse]
  exact or_comm

/-- C4 counterexample.  The RSS fetcher never checks `response.status`
and `feedparser.parse` never raises on malformed input: a non-2xx (or
malformed) RSS response from whose body the parser still recovered one
sports entry produces a **nonempty** result, refuting "the fetch returns
an empty list for that source" for two of the claim's enumerated failure
kinds (non-2xx status, malformed payload).  The status is demonstrably
ignored: the 500 response is processed exactly like a 200 response with
the same recovered entries. -/
theorem claim_C4_counterexample :
    (fetch_rss_news_response "s" "u" 0 [] (Except.ok ⟨500, [c4_entry]⟩)).length = 1
    ∧ fetch_rss_news_response "s" "u" 0 [] (Except.ok ⟨500, [c4_entry]⟩)
      = fetch_rss_news_response "s" "u" 0 [] (Except.ok ⟨200, [c4_entry]⟩) := by
  exact ⟨rfl, rfl⟩

/-- C4 as amended.  A raised transport or timeout exception is caught at
the source boundary and converted to an empty list; the NewsAPI fetcher
additionally converts non-2xx statuses and malformed JSON payloads to an
empty list, because `raise_for_status()` and `.json()` raise inside its
`try`.  The RSS fetcher, however, ignores the response status entirely
and contributes whatever entries `feedparser` recovered from the body
(it coincides with `fetch_rss_news` applied to those entries).  No
exception escapes a fetcher; one source's outcome never changes another
source's contribution (a failing source is indistinguishable from one
yielding nothing); and `collect_all_news` is a total function, so no
error is raised out of the collect stage. -/
theorem claim_C4_failure_isolation_amended :
    (∀ source url now posted msg,
        fetch_rss_news_response source url now posted (Except.error msg) = [])
    ∧ (∀ now posted msg,
        fetch_newsapi_news now posted (Except.error msg) = [])
    ∧ (∀ source url now posted status status2 entries,
        fetch_rss_news_response source url now posted (Except.ok ⟨status, entries⟩)
          = fetch_rss_news_response source url now posted (Except.ok ⟨status2, entries⟩))
    ∧ (∀ source url now posted r,
        fetch_rss_news_response source url now posted (Except.ok r)
          = fetch_rss_news source url now posted (Except.ok r.entries))
    ∧ (∀ apiNow posted apiResponse pre post source url now msg,
        all_candidates apiNow posted apiResponse
            (pre ++ RssFetch.mk source url now (Except.error msg) :: post)
          = all_candidates apiNow posted apiResponse
            (pre ++ RssFetch.mk source url now (Except.ok []) :: post))
    ∧ (∀ apiNow posted msg sources,
        all_candidates apiNow posted (Except.error msg) sources
          = all_candidates apiNow posted (Except.ok []) sources) := by
  refine ⟨fun _ _ _ _ _ => rfl, fun _ _ _ => rfl, fun _ _ _ _ _ _ _ => rfl,
    fun _ _ _ _ _ => rfl, ?_, ?_⟩
  · intro apiNow posted apiResponse pre post source url now msg
    unfold all_candidates
    simp [List.map_append, fetch_rss_news]
  · intro apiNow posted msg sources
    rfl

/-- C5.  For every set of fetched candidates, `collect_all_news` returns
at most `MAX_NEWS_PER_POST` items; together with the dropped remainder of
the sorted list it is a permutation of all candidates; every returned
item is at least as recent as every dropped item (so the result is the
most-recent `MAX_NEWS_PER_POST` candidates by `published`); and the sort
is stable: for each timestamp, the items carrying it appear in the sorted
list exactly in their source-dispatch order. -/
theorem claim_C5_aggregator_truncation :
    ∀ apiNow posted apiResponse sources,
      (collect_all_news apiNow posted apiResponse sources).length ≤ Config.MAX_NEWS_PER_POST
      ∧ (collect_all_news apiNow posted apiResponse sources ++
          (List.insertionSort recency (all_candidates apiNow posted apiResponse sources)).drop
            Config.MAX_NEWS_PER_POST).Perm
          (all_candidates apiNow posted apiResponse sources)
      ∧ (∀ x ∈ collect_all_news apiNow posted apiResponse sources,
          ∀ y ∈ (List.insertionSort recency
              (all_candidates apiNow posted apiResponse sources)).drop
              Config.MAX_NEWS_PER_POST,
          y.published ≤ x.published)
      ∧ (∀ t, (List.insertionSort recency
            (all_candidates apiNow posted apiResponse sources)).filter
              (fun a => decide (a.published = t))
          = (all_candidates apiNow posted apiResponse sources).filter
              (fun a => decide (a.published = t))) := by
  intro apiNow posted apiResponse sources
  refine ⟨?_, ?_, ?_, fun t => insertionSort_filter_published t _⟩
  · unfold collect_all_news
    rw [List.length_take]
    exact min_le_left _ _
  · unfold collect_all_news
    rw [List.take_append_drop]
    exact List.perm_insertionSort recency _
  · intro x hx y hy
    unfold collect_all_news at hx
    have hs : List.Sorted recency
        (List.insertionSort recency (all_candidates apiNow posted apiResponse sources)) :=
      List.sorted_insertionSort recency _
    rw [← List.take_append_drop Config.MAX_NEWS_PER_POST
      (List.insertionSort recency (all_candidates apiNow posted apiResponse sources))] at hs
    exact (List.pairwise_append.mp hs).2.2 x hx y hy

/-- C5 witness: with four surviving articles of equal timestamp, the
head of the returned batch is at least as recent as the dropped item. -/
theorem claim_C5_witness : c5_dropped.published ≤ c5_first.published := by
  refine (claim_C5_aggregator_truncation 0 [] (Except.ok four_articles) []).2.2.1
    c5_first ?_ c5_dropped ?_
  · show c5_first ∈ collect_all_news 0 [] (Except.ok four_articles) []
    exact List.Mem.head _
  · show c5_dropped ∈ _
    exact List.Mem.head _

/-- C7.  Each fetcher looks at no more than the first 5 parsed entries
(and so emits at most 5 items), and every emitted item has: a cleaned
title of at least the minimum length; title and summary truncated to
their configured maxima; no blocklisted keyword as a case-insensitive
substring of its title or summary; a fingerprint that was not in the
delivered set at fetch time; and `published` equal to the fetch time
(the source's own timestamp is never consulted). -/
theorem claim_C7_fetch_filters :
    (∀ source url now posted entries,
        fetch_rss_news source url now posted (Except.ok entries)
          = fetch_rss_news source url now posted (Except.ok (entries.take 5))
        ∧ (fetch_rss_news source url now posted (Except.ok entries)).length ≤ 5)
    ∧ (∀ now posted articles,
        fetch_newsapi_news now posted (Except.ok articles)
          = fetch_newsapi_news now posted (Except.ok (articles.take 5))
        ∧ (fetch_newsapi_news now posted (Except.ok articles)).length ≤ 5)
    ∧ (∀ source url now posted e item,
        rss_entry_item source url now posted e = some item →
          Config.MIN_TITLE_LENGTH ≤ pyLen item.title
          ∧ pyLen item.title ≤ Config.MAX_TITLE_LENGTH
          ∧ pyLen item.summary ≤ Config.MAX_SUMMARY_LENGTH
          ∧ (∀ kw ∈ Config.BLOCKED_KEYWORDS,
              hasSubCodes ((codes kw).map lowerNat) ((codes item.title).map lowerNat) = false
              ∧ hasSubCodes ((codes kw).map lowerNat) ((codes item.summary).map lowerNat) = false)
          ∧ posted.contains item.hash_id = false
          ∧ item.published = now)
    ∧ (∀ now posted a item,
        api_article_item now posted a = some item →
          Config.MIN_TITLE_LENGTH ≤ pyLen item.title
          ∧ pyLen item.title ≤ Config.MAX_TITLE_LENGTH
          ∧ pyLen item.summary ≤ Config.MAX_SUMMARY_LENGTH
          ∧ (∀ kw ∈ Config.BLOCKED_KEYWORDS,
              hasSubCodes ((codes kw).map lowerNat) ((codes item.title).map lowerNat) = false
              ∧ hasSubCodes ((codes kw).map lowerNat) ((codes item.summary).map lowerNat) = false)
          ∧ posted.contains item.hash_id = false
          ∧ item.published = now) := by
  refine ⟨?_, ?_, ?_, ?_⟩
  · intro source url now posted entries
    constructor
    · show (entries.take 5).filterMap (rss_entry_item source url now posted)
        = ((entries.take 5).take 5).filterMap (rss_entry_item source url now posted)
      rw [List.take_take]
      norm_num
    · unfold fetch_rss_news
      refine le_trans (List.length_filterMap_le _ _) ?_
      rw [List.length_take]
      exact min_le_left _ _
  · intro now posted articles
    constructor
    · show (articles.take 5).filterMap (api_article_item now posted)
        = ((articles.take 5).take 5).filterMap (api_article_item now posted)
      rw [List.take_take]
      norm_num
    · unfold fetch_newsapi_news
      refine le_trans (List.length_filterMap_le _ _) ?_
      rw [List.length_take]
      exact min_le_left _ _
  · intro source url now posted e item h
    obtain ⟨ht, hs, -, -, hpub, -, -, hmin, hblock, hcont, -⟩ := rss_entry_item_spec h
    refine ⟨?_, ?_, ?_, ?_, hcont, hpub⟩
    · rw [ht, pyLen_pyTake]
      unfold Config.MIN_TITLE_LENGTH Config.MAX_TITLE_LENGTH at *
      omega
    · rw [ht, pyLen_pyTake]
      exact min_le_left _ _
    · rw [hs, pyLen_pyTake]
      exact min_le_left _ _
    · intro kw hkw
      rw [blocked_kw_fix hkw]
      have hb := hblock kw hkw
      constructor
      · cases hc : pyInLower kw item.title with
        | false => exact hc
        | true =>
          rw [ht] at hc
          exact absurd (pyInLower_pyTake hc) (by rw [hb.1]; simp)
      · rw [hs]
        exact hb.2
  · intro now posted a item h
    obtain ⟨ht, hs, -, -, hpub, -, -, hmin, hblock, hcont⟩ := api_article_item_spec h
    refine ⟨?_, ?_, ?_, ?_, hcont, hpub⟩
    · rw [ht, pyLen_pyTake]
      unfold Config.MIN_TITLE_LENGTH Config.MAX_TITLE_LENGTH at *
      omega
    · rw [ht, pyLen_pyTake]
      exact min_le_left _ _
    · rw [hs, pyLen_pyTake]
      exact min_le_left _ _
    · intro kw hkw
      rw [blocked_kw_fix hkw]
      have hb := hblock kw hkw
      constructor
      · cases hc : pyInLower kw item.title with
        | false => exact hc
        | true =>
          rw [ht] at hc
          exact absurd (pyInLower_pyTake hc) (by rw [hb.1]; simp)
      · rw [hs]
        exact hb.2

/-- C7 witness: a concrete entry fetched at time 7 with an empty
delivered set is emitted with `published = 7`. -/
theorem claim_C7_witness : c7_item.published = 7 :=
  (claim_C7_fetch_filters.2.2.1 "s" "u" 7 [] c7_entry c7_item rfl).2.2.2.2.2

/-- C10.  Every emitted item carries the constant category `"ورزشی"`: an
RSS item is emitted only when the categorizer maps its cleaned
title-plus-summary to `"ورزشی"`, whereas the NewsAPI loop never calls the
categorizer and stamps `"ورزشی"` on every surviving article — including
the concrete `chess_article`, whose text contains no configured sports
keyword and which the categorizer itself would map to `"عمومی"`. -/
theorem claim_C10_category_constant :
    (∀ source url now posted e item,
        rss_entry_item source url now posted e = some item →
          item.category = "ورزشی"
          ∧ categorize_news (clean_html e.title ++ " " ++
              pyTake (clean_html e.summary) Config.MAX_SUMMARY_LENGTH) = "ورزشی")
    ∧ (∀ now posted a item,
        api_article_item now posted a = some item → item.category = "ورزشی")
    ∧ ((api_article_item 0 [] chess_article).map (fun i => i.category) = some "ورزشی"
        ∧ categorize_news (clean_html chess_article.title ++ " " ++
            pyTake (clean_html chess_article.description) Config.MAX_SUMMARY_LENGTH)
          = "عمومی") := by
  refine ⟨?_, ?_, by decide⟩
  · intro source url now posted e item h
    obtain ⟨-, -, -, -, -, -, hcat, -, -, -, hcz⟩ := rss_entry_item_spec h
    exact ⟨hcat, hcz⟩
  · intro now posted a item h
    exact (api_article_item_spec h).2.2.2.2.2.2.1

/-- C10 witness: the RSS conjunct applied to a concrete emitted item. -/
theorem claim_C10_witness : c7_item.category = "ورزشی" :=
  (claim_C10_category_constant.1 "s" "u" 7 [] c7_entry c7_item rfl).1

/-- C1 counterexample.  A feed whose payload repeats one sports entry:
`fetch_rss_news` emits both copies (the in-fetch check consults only the
delivered set as it was before the run, and the Publisher performs no
check of its own before sending), so with every Telegram send succeeding
the run performs two successful sends carrying the same fingerprint —
refuting "no two successful sends in the same run or across runs carry
the same fingerprint". -/
theorem claim_C1_counterexample :
    dup_feed_items.length = 2 ∧ dup_sends = [dup_hash, dup_hash] := by
  constructor
  · rfl
  · rfl

/-- C1 as amended: the delivered-set check lives in the fetch stage, not
the Publisher; a fingerprint present in `posted_news` before the run is
never carried by any successful send of that run. -/
theorem claim_C1_cross_run_at_most_once :
    ∀ apiNow posted apiResponse sources outcomes h,
      h ∈ (post_news_to_channel
            ((collect_all_news apiNow posted apiResponse sources).zip outcomes) posted).2 →
      h ∉ posted := by
  intro apiNow posted apiResponse sources outcomes h hmem hp
  rw [post_sends] at hmem
  simp only [List.mem_map, List.mem_filter] at hmem
  obtain ⟨p, ⟨hpz, -⟩, rfl⟩ := hmem
  have hitem : p.1 ∈ collect_all_news apiNow posted apiResponse sources := by
    obtain ⟨a, b⟩ := p
    exact (List.of_mem_zip hpz).1
  unfold collect_all_news at hitem
  have hcand : p.1 ∈ all_candidates apiNow posted apiResponse sources :=
    (List.mem_insertionSort recency).mp (List.mem_of_mem_take hitem)
  exact contains_false_not_mem (all_candidates_fresh hcand) hp

/-- C1 witness: a concrete run over one feed with one sports entry and a
successful send; the sent fingerprint was not among the previously
delivered ones. -/
theorem claim_C1_witness : dup_hash ∉ ([] : List String) :=
  claim_C1_cross_run_at_most_once 0 [] (Except.error "api down")
    [RssFetch.mk "s" "feed" 0 (Except.ok [dup_entry])] [true] dup_hash
    (List.Mem.head _)

/-- C2 counterexample.  The same article (same title, same canonical
link) served inside two different feeds: both fetches emit it, the two
items agree on title and on the canonical link stored in `url`, yet their
fingerprints differ, because line 145 hashes the *feed* URL (the `url`
argument of `fetch_rss_news`), not the article link — refuting "equal
(title, canonical-link) pairs always yield an equal fingerprint". -/
theorem claim_C2_counterexample :
    (rss_entry_item "A" "a" 0 [] shared_entry).isSome = true
    ∧ c2_itemA.title = c2_itemB.title
    ∧ c2_itemA.url = c2_itemB.url
    ∧ c2_itemA.hash_id ≠ c2_itemB.hash_id := by
  refine ⟨rfl, rfl, rfl, ?_⟩
  decide

/-- C2 as amended: the fingerprint is the deterministic MD5 hex digest of
the cleaned (untruncated) title concatenated with the *request URL* — the
feed URL for RSS items, and the article URL (which the NewsAPI loop also
stores in the item's `url` field) for NewsAPI items. -/
theorem claim_C2_fingerprint_of_title_and_request_url :
    (∀ source url now posted e item,
        rss_entry_item source url now posted e = some item →
          item.hash_id = fingerprint (clean_html e.title) url)
    ∧ (∀ now posted a item,
        api_article_item now posted a = some item →
          item.hash_id = fingerprint (clean_html a.title) item.url) := by
  constructor
  · intro source url now posted e item h
    exact (rss_entry_item_spec h).2.2.2.2.2.1
  · intro now posted a item h
    obtain ⟨-, -, hurl, -, -, hhash, -⟩ := api_article_item_spec h
    rw [hurl, hhash]

/-- C2 witness: a concrete emitted RSS item whose fingerprint is the MD5
digest of its cleaned title concatenated with the feed URL. -/
theorem claim_C2_witness :
    c2w_item.hash_id = fingerprint (clean_html c2w_entry.title) "U" :=
  claim_C2_fingerprint_of_title_and_request_url.1 "S" "U" 3 [] c2w_entry c2w_item rfl

/-- C6 counterexample.  A run whose collect phase yields no items returns
`{'status': 'error', 'message': 'No news fetched'}`: its status is
`"error"`, the same status as a run whose `NewsBot()` construction failed
before any fetch — refuting "a non-error outcome, distinct from the error
outcome of a run that fails before any fetch begins". -/
theorem claim_C6_counterexample :
    (main_run none []).status = "error"
    ∧ (main_run none []).status = (main_run (some "init failed") []).status := by
  exact ⟨rfl, rfl⟩

/-- C6 as amended: a zero-item run terminates normally but reports
status `"error"` with the fixed message `"No news fetched"`; a run that
fails before fetching also reports status `"error"`, carrying the
exception text instead, so the two outcomes are distinguished only by
their message; a run with items reports status `"success"`. -/
theorem claim_C6_empty_run_is_error_status :
    main_run none [] = { status := "error", message := "No news fetched" }
    ∧ (∀ msg, main_run (some msg) [] = { status := "error", message := msg })
    ∧ (∀ items : List NewsItem, items ≠ [] → (main_run none items).status = "success") := by
  refine ⟨rfl, fun msg => rfl, ?_⟩
  intro items h
  unfold main_run
  rw [if_neg]
  simp only [List.isEmpty_iff]
  exact h

/-- C6 witness: a run with one item reports success. -/
theorem claim_C6_witness : (main_run none [default]).status = "success" :=
  claim_C6_empty_run_is_error_status.2.2 [default] (by simp)

/-- C8 counterexample.  On the markup-free input `"خبر  مهم"` the cleaner
returns the input unchanged: the run of two spaces survives, and the
output differs from the single-space collapse the claim prescribes —
refuting "collapses every run of whitespace to a single space". -/
theorem claim_C8_counterexample :
    clean_html "خبر  مهم" = "خبر  مهم"
    ∧ hasSubCodes (codes "  ") (codes (clean_html "خبر  مهم")) = true
    ∧ clean_html "خبر  مهم" ≠ "خبر مهم" := by
  refine ⟨rfl, rfl, ?_⟩
  decide

/-- C8 as amended: the cleaner strips markup tags, decodes character
references in the surviving text, and trims leading and trailing Unicode
whitespace; it never fails (it is a total function), and empty or
missing input yields the empty string.  Interior whitespace runs are
preserved, not collapsed: on input free of markup and character
references the cleaner is exactly `str.strip()`. -/
theorem claim_C8_cleaner_strips_and_trims :
    clean_html "" = ""
    ∧ clean_html "<p>خبر</p>" = "خبر"
    ∧ clean_html "&amp;" = "&"
    ∧ clean_html "x&nbsp;" = "x"
    ∧ (∀ s : String, ∀ c : Char,
        ((clean_html s).data.head? = some c → pySpaceChar c = false)
        ∧ ((clean_html s).data.getLast? = some c → pySpaceChar c = false))
    ∧ (∀ s : String,
        s.data.all (fun c => !(c == '<') && !(c == '&')) = true →
        clean_html s = String.mk (pyStrip s.data)) := by
  refine ⟨rfl, rfl, rfl, rfl, ?_, ?_⟩
  · intro s c
    exact ⟨fun h => pyStrip_head h, fun h => pyStrip_getLast h⟩
  · intro s h
    rw [List.all_eq_true] at h
    have h1 : s.data.all (fun c => !(c == '<')) = true := by
      rw [List.all_eq_true]
      intro c hc
      have hx := h c hc
      rw [Bool.and_eq_true] at hx
      exact hx.1
    have h2 : s.data.all (fun c => !(c == '&')) = true := by
      rw [List.all_eq_true]
      intro c hc
      have hx := h c hc
      rw [Bool.and_eq_true] at hx
      exact hx.2
    unfold clean_html
    rw [stripTagsAux_no_tag h1, decodeCharrefs_no_amp h2]

/-- C8 witness: the cleaner on a concrete string free of markup and
character references is just its `strip()`. -/
theorem claim_C8_witness :
    clean_html " خبر مهم " = String.mk (pyStrip " خبر مهم ".data) :=
  claim_C8_cleaner_strips_and_trims.2.2.2.2.2 " خبر مهم " (by decide)
